import Mathlib

/-!
Shallow embedding of the 1min-relay-worker request-validation pipeline.

Sources embedded:
* `src/utils/validation.ts` (`validateModelAndMessages`), given here with its
  collaborators (`parseAndGetConfig`, `getModelData`,
  `processMessagesWithImageCheck`) abstracted as parameters, since only their
  call sites live in the embedded file; an explicit effect trace records, in
  order, which collaborators a run invoked.
* `src/utils/image.ts` (`extractImageFromContent`, `mimeToExtension`,
  `processImageUrl`, `uploadImageToAsset`), with the platform `fetch` and the
  upload response abstracted as oracles and `atob` modelled after the
  WHATWG forgiving-base64 decoder the platform implements.

JavaScript truthiness of optional strings (`if (x)`) is modelled explicitly:
`undefined` and the empty string are falsy.
-/

namespace Relay

/-- JavaScript truthiness of a `string | undefined` value: `undefined` and
`""` are falsy, every other string is truthy. -/
def optStrTruthy : Option String → Bool
  | none => false
  | some s => !s.isEmpty

/-- The web-search feature bundle extracted by the model parser. The embedded
code carries it without inspecting it, so it is modelled as an abstract
token. -/
inductive WebSearchConfig
  | mk
deriving DecidableEq

/-- Result shape of `parseAndGetConfig` (src/utils/model-parser.ts): a clean
model id, an optional web-search configuration, and an optional error
string. -/
structure ParseResult where
  cleanModel : String
  webSearchConfig : Option WebSearchConfig
  error : Option String
deriving DecidableEq

/-- The model-catalog snapshot returned by `getModelData`
(src/services/model-registry.ts): arrays of model ids, membership tested with
`Array.prototype.includes`. -/
structure ModelData where
  chatModelIds : List String
  imageModelIds : List String
  visionModelIds : List String
deriving DecidableEq

/-- One content part of a message: `TextContent { type: "text", text }` or
`ImageContent { type: "image_url", image_url: { url } }`. The `url` is
`Option String` because the code reads it as `item.image_url?.url`, guarding
against a missing object or field. -/
inductive ContentItem
  | text (text : String)
  | imageUrl (url : Option String)
deriving DecidableEq

/-- `MessageContent`: a plain string or an ordered list of typed parts. -/
inductive MessageContent
  | str (s : String)
  | parts (items : List ContentItem)
deriving DecidableEq

/-- A chat message `{ role, content }`. -/
structure Message where
  role : String
  content : MessageContent
deriving DecidableEq

/-- Result shape of `processMessagesWithImageCheck`
(src/utils/message-processing.ts). -/
structure ProcessResult where
  processedMessages : List Message
  hasImages : Bool
deriving DecidableEq

/-- The typed errors `validateModelAndMessages` throws
(src/utils/errors.ts): `ValidationError(message, field, code)` and
`ModelNotFoundError(model)`. -/
inductive ThrownError
  | validationError (message : String) (field : String) (code : String)
  | modelNotFoundError (model : String)
deriving DecidableEq

/-- The validated output `{ cleanModel, webSearchConfig, processedMessages }`. -/
structure ValidatedModel where
  cleanModel : String
  webSearchConfig : Option WebSearchConfig
  processedMessages : List Message
deriving DecidableEq

/-- Collaborator invocations observable during a run of
`validateModelAndMessages`: the awaited catalog fetch and the message
processing pass. -/
inductive Effect
  | catalogFetch
  | messageProcessing
deriving DecidableEq

/-- Embedding of `validateModelAndMessages` (src/utils/validation.ts).
The collaborators are parameters: `parseAndGetConfig` is the pure model
parser, `getModelData` the catalog snapshot the awaited fetch resolves to,
`processMessagesWithImageCheck` the message pass. The second component is
the trace of collaborator effects the run performed, in source order. -/
def validateModelAndMessages
    (parseAndGetConfig : String → ParseResult)
    (getModelData : ModelData)
    (processMessagesWithImageCheck : List Message → ProcessResult)
    (rawModel : String) (messages : List Message) :
    Except ThrownError ValidatedModel × List Effect :=
  let parseResult := parseAndGetConfig rawModel
  if optStrTruthy parseResult.error then
    (.error (.validationError (parseResult.error.getD "") "model" "model_not_found"), [])
  else
    let cleanModel := parseResult.cleanModel
    let webSearchConfig := parseResult.webSearchConfig
    let modelData := getModelData
    if !(modelData.chatModelIds.contains cleanModel) then
      if modelData.imageModelIds.contains cleanModel then
        (.error (.validationError
          s!"Model '{cleanModel}' is an image generation model. Use POST /v1/images/generations instead."
          "model" "model_not_supported"), [.catalogFetch])
      else
        (.error (.modelNotFoundError cleanModel), [.catalogFetch])
    else
      let processed := processMessagesWithImageCheck messages
      if processed.hasImages && !(modelData.visionModelIds.contains cleanModel) then
        (.error (.validationError s!"Model '{cleanModel}' does not support image inputs"
          "model" "model_not_supported"), [.catalogFetch, .messageProcessing])
      else
        (.ok { cleanModel := cleanModel, webSearchConfig := webSearchConfig,
               processedMessages := processed.processedMessages },
         [.catalogFetch, .messageProcessing])

/-- Whether a message content value holds an `image_url` part with a truthy
`url` (the scan §4.3 of the spec describes). -/
def contentHasImage : MessageContent → Bool
  | .str _ => false
  | .parts items => items.any fun it =>
      match it with
      | .imageUrl u => optStrTruthy u
      | _ => false

/-- Modelled from the spec: `processMessagesWithImageCheck`
(src/utils/message-processing.ts) is not among the provided sources. Per the
spec, the pass returns the processed messages in input order and
`hasImages = true` exactly when some message has a part with
`type === "image_url"` and a present `image_url.url`; the normalization
itself is treated as the identity on message structure. -/
def processMessagesWithImageCheck (messages : List Message) : ProcessResult :=
  { processedMessages := messages
    hasImages := messages.any fun m => contentHasImage m.content }

/-- A content part with `type === "image_url"` and a truthy `image_url.url`. -/
def isPresentImagePart : ContentItem → Bool
  | .imageUrl u => optStrTruthy u
  | _ => false

/-- The `image_url.url` of a part, when the part is an image part. -/
def partUrl : ContentItem → Option String
  | .imageUrl u => u
  | _ => none

/-- The for-loop of `extractImageFromContent` (src/utils/image.ts): return
the first item whose `type` is `"image_url"` with a truthy `image_url?.url`. -/
def extractImageLoop : List ContentItem → Option String
  | [] => none
  | item :: rest =>
    match item with
    | .imageUrl u => if optStrTruthy u then u else extractImageLoop rest
    | .text _ => extractImageLoop rest

/-- Embedding of `extractImageFromContent` (src/utils/image.ts): `null` for a
plain string, otherwise the first image part's url if any. -/
def extractImageFromContent : MessageContent → Option String
  | .str _ => none
  | .parts items => extractImageLoop items

/-- `String.prototype.split(sep)` for a one-character separator, on character
lists: the separator-delimited segments in order (`acc` is the current
segment, reversed). -/
def splitCharAux (sep : Char) : List Char → List Char → List (List Char)
  | [], acc => [acc.reverse]
  | c :: cs, acc =>
    if c = sep then acc.reverse :: splitCharAux sep cs []
    else splitCharAux sep cs (c :: acc)

/-- `String.prototype.trim()` on character lists: whitespace removed from
both ends. -/
def trimChars (cs : List Char) : List Char :=
  ((cs.dropWhile Char.isWhitespace).reverse.dropWhile Char.isWhitespace).reverse

/-- The fixed `MIME_TO_EXT` table of src/utils/image.ts. -/
def MIME_TO_EXT : List (String × String) :=
  [("image/jpeg", ".jpg"), ("image/png", ".png"), ("image/webp", ".webp"),
   ("image/gif", ".gif")]

/-- `SUPPORTED_MIME_TYPES = new Set(Object.keys(MIME_TO_EXT))`. -/
def SUPPORTED_MIME_TYPES : List String := MIME_TO_EXT.map Prod.fst

/-- Embedding of `mimeToExtension` (src/utils/image.ts): the table entry, or
`".png"` for any unknown MIME type (the source additionally logs a warning,
a side effect with no bearing on the returned value). -/
def mimeToExtension (mimeType : String) : String :=
  (MIME_TO_EXT.lookup mimeType).getD ".png"

/-- The binary payload and MIME type `processImageUrl` produces; `data` is
the byte list of the `ArrayBuffer`. -/
structure ImageData where
  data : List Nat
  mimeType : String
deriving DecidableEq

/-- An HTTP response as `processImageUrl` observes it: status, status text,
the `content-type` header (if any), and the body bytes. -/
structure FetchResponse where
  status : Nat
  statusText : String
  contentType : Option String
  body : List Nat
deriving DecidableEq

/-- `Response.ok`: the status is in the 2xx range. -/
def FetchResponse.ok (r : FetchResponse) : Bool :=
  decide (200 ≤ r.status ∧ r.status ≤ 299)

/-- The base64 alphabet, in index order. -/
def base64Alphabet : List Char :=
  "ABCDEFGHIJKLMNOPQRSTUVWXYZabcdefghijklmnopqrstuvwxyz0123456789+/".toList

/-- The 6-bit value of a base64 character, if it is one. -/
def b64Value (c : Char) : Option Nat :=
  let i := base64Alphabet.indexOf c
  if i < 64 then some i else none

/-- ASCII whitespace, which forgiving-base64 decoding removes. -/
def isB64Whitespace (c : Char) : Bool :=
  c = '\t' || c = '\n' || c = '\x0c' || c = '\r' || c = ' '

/-- Strip the up-to-two trailing `=` padding characters when the length is a
multiple of four (forgiving-base64, step 2). -/
def stripBase64Padding (cs : List Char) : List Char :=
  if cs.length % 4 = 0 then
    match cs.reverse with
    | '=' :: '=' :: rest => rest.reverse
    | '=' :: rest => rest.reverse
    | _ => cs
  else cs

/-- Decode 6-bit values in chunks of four into bytes; a trailing chunk of two
or three values contributes one or two bytes, a trailing single value is
invalid. -/
def atobChunks : List Nat → Option (List Nat)
  | [] => some []
  | [_] => none
  | [a, b] => some [a * 4 + b / 16]
  | [a, b, c] => some [a * 4 + b / 16, b % 16 * 16 + c / 4]
  | a :: b :: c :: d :: rest =>
    (atobChunks rest).map fun tail =>
      (a * 4 + b / 16) :: (b % 16 * 16 + c / 4) :: (c % 4 * 64 + d) :: tail

/-- The platform `atob`: WHATWG forgiving-base64 decoding. ASCII whitespace
is removed, padding stripped, and a remainder-one length or a character
outside the base64 alphabet is a failure (`InvalidCharacterError`). -/
def atob (s : String) : Option (List Nat) :=
  let cs := stripBase64Padding (s.toList.filter fun c => !isB64Whitespace c)
  if cs.length % 4 = 1 then none
  else
    match cs.mapM b64Value with
    | none => none
    | some vals => atobChunks vals

/-- The guard `imageUrl.startsWith("data:image/")`. -/
def dataImageMark : List Char := "data:image/".toList

/-- The regex `/^data:([^;,]+)/` of `processImageUrl`: its first capture
group, present when the url starts with `data:` followed by at least one
character other than `;` and `,`. -/
def regexDataMime (url : List Char) : Option String :=
  if url.take 5 = "data:".toList then
    let cap := (url.drop 5).takeWhile fun c => !(c = ';' || c = ',')
    if cap.isEmpty then none else some (String.mk cap)
  else none

/-- The `rawMime` of `processImageUrl`: the response's declared
`content-type` up to the first `;`, trimmed. -/
def declaredMime (r : FetchResponse) : Option String :=
  r.contentType.map fun ct =>
    String.mk (trimChars ((splitCharAux ';' ct.toList []).headD []))

/-- Embedding of `processImageUrl` (src/utils/image.ts). The platform
`fetch` is an oracle from the url to the response it resolves with; a thrown
error is the `Except.error` message. -/
def processImageUrl (fetch : String → FetchResponse) (imageUrl : String) :
    Except String ImageData :=
  let url := imageUrl.toList
  if url.take dataImageMark.length = dataImageMark then
    let mimeType := (regexDataMime url).getD "image/png"
    match (splitCharAux ',' url []).get? 1 with
    | none => .error "Invalid base64 image format"
    | some base64Data =>
      if base64Data.isEmpty then .error "Invalid base64 image format"
      else
        match atob (String.mk base64Data) with
        | none => .error "InvalidCharacterError"
        | some bytes => .ok { data := bytes, mimeType := mimeType }
  else
    let response := fetch imageUrl
    if !response.ok then
      .error s!"Failed to fetch image: {response.status} {response.statusText}"
    else
      let rawMime := declaredMime response
      let mimeType :=
        match rawMime with
        | some m => if !m.isEmpty && SUPPORTED_MIME_TYPES.contains m then m else "image/png"
        | none => "image/png"
      .ok { data := response.body, mimeType := mimeType }

/-- A file-content record of the asset API's JSON body. -/
structure FileContent where
  path : String
deriving DecidableEq

/-- The JSON body shape of the asset API: `{ fileContent?: { path } }`. -/
structure AssetResult where
  fileContent : Option FileContent
deriving DecidableEq

/-- The asset endpoint's response as `uploadImageToAsset` observes it:
status, status text, the raw body text, and the body's JSON parse (`none`
when `response.json()` rejects). -/
structure UploadResponse where
  status : Nat
  statusText : String
  bodyText : String
  json : Option AssetResult
deriving DecidableEq

/-- `Response.ok` for the upload response. -/
def UploadResponse.ok (r : UploadResponse) : Bool :=
  decide (200 ≤ r.status ∧ r.status ≤ 299)

/-- Embedding of `uploadImageToAsset` (src/utils/image.ts). `uuid` stands
for the `crypto.randomUUID()` value and `response` for what the POST to
`assetUrl` resolves with; the multipart form assembly has no bearing on the
returned value beyond the filename built from `ext`. -/
def uploadImageToAsset (imageData : ImageData) (apiKey : String)
    (assetUrl : String) (uuid : String) (response : UploadResponse) :
    Except String String :=
  let ext := mimeToExtension imageData.mimeType
  let filename := "relay" ++ uuid ++ ext
  if !response.ok then
    .error s!"Failed to upload image: {response.status} {response.statusText} - {response.bodyText}"
  else
    match response.json with
    | none => .error "Unexpected end of JSON input"
    | some result =>
      match result.fileContent with
      | none => .error "No image path returned from asset API"
      | some fc =>
        if fc.path.isEmpty then .error "No image path returned from asset API"
        else .ok fc.path

end Relay

namespace Relay

/-- Claim C1: whenever `validateModelAndMessages` returns successfully, the
returned `cleanModel` is a member of `chatModelIds` in the catalog snapshot
fetched during that call; validation never succeeds with a model id outside
`chatModelIds`. -/
theorem validate_success_cleanModel_mem_chatModelIds
    (parse : String → ParseResult) (catalog : ModelData)
    (proc : List Message → ProcessResult)
    (rawModel : String) (messages : List Message) (vm : ValidatedModel)
    (h : (validateModelAndMessages parse catalog proc rawModel messages).1 = .ok vm) :
    vm.cleanModel ∈ catalog.chatModelIds := by
  simp only [validateModelAndMessages] at h
  split at h
  · simp at h
  · split at h
    · split at h <;> simp at h
    · rename_i hchat
      split at h
      · simp at h
      · simp only [Except.ok.injEq] at h
        subst h
        simp only [Bool.not_eq_true, Bool.not_eq_false] at hchat
        simpa [List.contains] using hchat

/-- Closed witness for C1: a concrete run that validates successfully, with
the returned clean model a member of the concrete catalog's chat ids. -/
theorem validate_success_cleanModel_mem_chatModelIds_witness :
    ({ cleanModel := "gpt-4", webSearchConfig := none, processedMessages := [] } :
        ValidatedModel).cleanModel ∈
      (ModelData.mk ["gpt-4", "claude"] ["img-gen-1"] ["gpt-4"]).chatModelIds :=
  validate_success_cleanModel_mem_chatModelIds
    (fun r => { cleanModel := r, webSearchConfig := none, error := none })
    (ModelData.mk ["gpt-4", "claude"] ["img-gen-1"] ["gpt-4"])
    (fun ms => { processedMessages := ms, hasImages := false })
    "gpt-4" [] _ (by rfl)

/-- Claim C2: whenever the model parser reports an error on `rawModel`,
`validateModelAndMessages` fails with a `ValidationError` carrying field
`"model"` and code `"model_not_found"`, and its effect trace is empty: the
catalog lookup and the message pass were never invoked. -/
theorem validate_parse_error_fails_before_catalog
    (parse : String → ParseResult) (catalog : ModelData)
    (proc : List Message → ProcessResult)
    (rawModel : String) (messages : List Message)
    (herr : optStrTruthy (parse rawModel).error = true) :
    validateModelAndMessages parse catalog proc rawModel messages =
      (.error (.validationError ((parse rawModel).error.getD "") "model" "model_not_found"),
        []) := by
  simp [validateModelAndMessages, herr]

/-- Closed witness for C2: a concrete parser error produces the
`model_not_found` validation error with an empty effect trace. -/
theorem validate_parse_error_fails_before_catalog_witness :
    validateModelAndMessages
        (fun _ => { cleanModel := "", webSearchConfig := none, error := some "bad model" })
        (ModelData.mk ["gpt-4"] [] []) (fun ms => { processedMessages := ms, hasImages := false })
        "???" [] =
      (.error (.validationError "bad model" "model" "model_not_found"), []) :=
  validate_parse_error_fails_before_catalog
    (fun _ => { cleanModel := "", webSearchConfig := none, error := some "bad model" })
    (ModelData.mk ["gpt-4"] [] []) (fun ms => { processedMessages := ms, hasImages := false })
    "???" [] (by rfl)

/-- Claim C3: when the parsed model id is not in `chatModelIds`, validation
fails: with a `model_not_supported` `ValidationError` naming the
image-generation endpoint if the id is in `imageModelIds`, and with
`ModelNotFoundError` carrying the clean model id otherwise. -/
theorem validate_nonchat_model_errors
    (parse : String → ParseResult) (catalog : ModelData)
    (proc : List Message → ProcessResult)
    (rawModel : String) (messages : List Message)
    (hok : optStrTruthy (parse rawModel).error = false)
    (hchat : catalog.chatModelIds.contains (parse rawModel).cleanModel = false) :
    (catalog.imageModelIds.contains (parse rawModel).cleanModel = true →
      validateModelAndMessages parse catalog proc rawModel messages =
        (.error (.validationError
          s!"Model '{(parse rawModel).cleanModel}' is an image generation model. Use POST /v1/images/generations instead."
          "model" "model_not_supported"), [.catalogFetch])) ∧
    (catalog.imageModelIds.contains (parse rawModel).cleanModel = false →
      validateModelAndMessages parse catalog proc rawModel messages =
        (.error (.modelNotFoundError (parse rawModel).cleanModel), [.catalogFetch])) := by
  constructor
  · intro himg
    simp at hchat himg
    simp [validateModelAndMessages, hok, hchat, himg]
  · intro himg
    simp at hchat himg
    simp [validateModelAndMessages, hok, hchat, himg]

/-- Closed witness for C3: a catalog where `"img-gen-1"` is an image model
but not a chat model makes validation fail with the `model_not_supported`
error that names the image-generation endpoint. -/
theorem validate_nonchat_model_errors_witness :
    validateModelAndMessages
        (fun r => { cleanModel := r, webSearchConfig := none, error := none })
        (ModelData.mk ["chat-1"] ["img-gen-1"] [])
        (fun ms => { processedMessages := ms, hasImages := false }) "img-gen-1" [] =
      (.error (.validationError
        "Model 'img-gen-1' is an image generation model. Use POST /v1/images/generations instead."
        "model" "model_not_supported"), [.catalogFetch]) :=
  (validate_nonchat_model_errors
      (fun r => { cleanModel := r, webSearchConfig := none, error := none })
      (ModelData.mk ["chat-1"] ["img-gen-1"] [])
      (fun ms => { processedMessages := ms, hasImages := false }) "img-gen-1" []
      (by rfl) (by rfl)).1 (by rfl)

/-- Claim C4: with messages containing at least one image part, a chat model
outside `visionModelIds` is rejected with a `model_not_supported`
`ValidationError` saying it does not support image inputs, while the same
model inside `visionModelIds` makes the identical input succeed. The message
pass is the spec-modelled `processMessagesWithImageCheck`. -/
theorem validate_vision_gating
    (parse : String → ParseResult) (catalog : ModelData)
    (rawModel : String) (messages : List Message)
    (hok : optStrTruthy (parse rawModel).error = false)
    (hchat : catalog.chatModelIds.contains (parse rawModel).cleanModel = true)
    (himg : (messages.any fun m => contentHasImage m.content) = true) :
    (catalog.visionModelIds.contains (parse rawModel).cleanModel = false →
      (validateModelAndMessages parse catalog processMessagesWithImageCheck
          rawModel messages).1 =
        .error (.validationError
          s!"Model '{(parse rawModel).cleanModel}' does not support image inputs"
          "model" "model_not_supported")) ∧
    (catalog.visionModelIds.contains (parse rawModel).cleanModel = true →
      ∃ vm, (validateModelAndMessages parse catalog processMessagesWithImageCheck
          rawModel messages).1 = .ok vm) := by
  constructor
  · intro hvis
    simp at hchat hvis
    simp [validateModelAndMessages, processMessagesWithImageCheck, hok, hchat, himg, hvis]
  · intro hvis
    simp at hchat hvis
    refine ⟨{ cleanModel := (parse rawModel).cleanModel,
              webSearchConfig := (parse rawModel).webSearchConfig,
              processedMessages := messages }, ?_⟩
    simp [validateModelAndMessages, processMessagesWithImageCheck, hok, hchat, himg, hvis]

/-- Closed witness for C4: a concrete chat model without vision capability is
rejected for a message carrying an `image_url` part. -/
theorem validate_vision_gating_witness :
    (validateModelAndMessages
        (fun r => { cleanModel := r, webSearchConfig := none, error := none })
        (ModelData.mk ["chat-1"] [] []) processMessagesWithImageCheck "chat-1"
        [{ role := "user",
           content := .parts [.imageUrl (some "http://example.com/a.png")] }]).1 =
      .error (.validationError "Model 'chat-1' does not support image inputs"
        "model" "model_not_supported") :=
  (validate_vision_gating
      (fun r => { cleanModel := r, webSearchConfig := none, error := none })
      (ModelData.mk ["chat-1"] [] []) "chat-1"
      [{ role := "user",
         content := .parts [.imageUrl (some "http://example.com/a.png")] }]
      (by rfl) (by rfl) (by rfl)).1 (by rfl)

/-- Claim C10: `extractImageFromContent` returns `null` on a plain string and
on part lists with no present image url; otherwise it returns the url of the
first image part in content order, ignoring later ones. -/
theorem extractImage_returns_first_present_image :
    (∀ s, extractImageFromContent (.str s) = none) ∧
    (∀ items : List ContentItem,
      extractImageFromContent (.parts items) =
        (items.find? isPresentImagePart).bind partUrl) := by
  refine ⟨fun s => rfl, fun items => ?_⟩
  induction items with
  | nil => rfl
  | cons item rest ih =>
    cases item with
    | text t =>
      simpa [extractImageFromContent, extractImageLoop, List.find?,
        isPresentImagePart] using ih
    | imageUrl u =>
      by_cases hu : optStrTruthy u = true
      · simp [extractImageFromContent, extractImageLoop, List.find?,
          isPresentImagePart, hu, partUrl]
      · simpa [extractImageFromContent, extractImageLoop, List.find?,
          isPresentImagePart, hu] using ih

/-- Claim C9: `mimeToExtension` is total and implements the documented fixed
table, returning `".png"` for every input outside it. -/
theorem mimeToExtension_fixed_table :
    mimeToExtension "image/jpeg" = ".jpg" ∧
    mimeToExtension "image/png" = ".png" ∧
    mimeToExtension "image/webp" = ".webp" ∧
    mimeToExtension "image/gif" = ".gif" ∧
    ∀ s : String, s ∉ ["image/jpeg", "image/png", "image/webp", "image/gif"] →
      mimeToExtension s = ".png" := by
  refine ⟨rfl, rfl, rfl, rfl, fun s hs => ?_⟩
  simp only [List.mem_cons, List.not_mem_nil, or_false, not_or] at hs
  obtain ⟨h1, h2, h3, h4⟩ := hs
  have e1 : (s == "image/jpeg") = false := beq_eq_false_iff_ne.mpr h1
  have e2 : (s == "image/png") = false := beq_eq_false_iff_ne.mpr h2
  have e3 : (s == "image/webp") = false := beq_eq_false_iff_ne.mpr h3
  have e4 : (s == "image/gif") = false := beq_eq_false_iff_ne.mpr h4
  simp [mimeToExtension, MIME_TO_EXT, List.lookup, e1, e2, e3, e4]

/-- Claim C6: for a non-data url whose fetch succeeds with a 2xx status, a
declared content-type whose parameter-stripped value is one of the four
supported image MIME types is returned unchanged as `mimeType`; any other
declared value, or an absent content-type header, is defaulted to
`"image/png"`. -/
theorem processImageUrl_http_mime_trust
    (fetch : String → FetchResponse) (imageUrl : String)
    (hnd : ¬ imageUrl.toList.take dataImageMark.length = dataImageMark)
    (hok : (fetch imageUrl).ok = true) :
    (∀ m, declaredMime (fetch imageUrl) = some m →
      m ∈ ["image/jpeg", "image/png", "image/webp", "image/gif"] →
      processImageUrl fetch imageUrl =
        .ok { data := (fetch imageUrl).body, mimeType := m }) ∧
    (∀ m, declaredMime (fetch imageUrl) = some m →
      m ∉ ["image/jpeg", "image/png", "image/webp", "image/gif"] →
      processImageUrl fetch imageUrl =
        .ok { data := (fetch imageUrl).body, mimeType := "image/png" }) ∧
    ((fetch imageUrl).contentType = none →
      processImageUrl fetch imageUrl =
        .ok { data := (fetch imageUrl).body, mimeType := "image/png" }) := by
  have hnd' : ¬ imageUrl.data.take dataImageMark.length = dataImageMark := hnd
  refine ⟨?_, ?_, ?_⟩
  · intro m hm hmem
    simp only [List.mem_cons, List.not_mem_nil, or_false] at hmem
    rcases hmem with rfl | rfl | rfl | rfl <;>
      [skip; skip; skip; skip] <;>
      · simp [processImageUrl, hnd', hok, hm, SUPPORTED_MIME_TYPES, MIME_TO_EXT]
        try decide
  · intro m hm hmem
    simp [processImageUrl, hnd', hok, hm, hmem, SUPPORTED_MIME_TYPES, MIME_TO_EXT]
  · intro hct
    simp [processImageUrl, hnd', hok, declaredMime, hct]

/-- A constant fetch oracle for closed instantiations. -/
def fetchStub : String → FetchResponse := fun _ =>
  { status := 200, statusText := "OK", contentType := none, body := [] }

/-- Closed witness for C6: a declared `application/octet-stream` is
defaulted to `"image/png"`. -/
theorem processImageUrl_http_mime_trust_witness :
    processImageUrl
        (fun _ => { status := 200, statusText := "OK",
                    contentType := some "application/octet-stream", body := [1, 2] })
        "http://example.com/a.png" =
      .ok { data := [1, 2], mimeType := "image/png" } :=
  (processImageUrl_http_mime_trust
      (fun _ => { status := 200, statusText := "OK",
                  contentType := some "application/octet-stream", body := [1, 2] })
      "http://example.com/a.png" (by decide) (by decide)).2.1
    "application/octet-stream" (by rfl) (by decide)

/-- Claim C7: `uploadImageToAsset` fails on a non-2xx response with the
upstream status, status text and body text in the message; fails on a 2xx
response whose JSON body has a falsy `fileContent?.path` chain ("no path
returned"); and never succeeds with an empty path. -/
theorem uploadImageToAsset_failure_modes
    (imageData : ImageData) (apiKey assetUrl uuid : String)
    (response : UploadResponse) :
    (response.ok = false →
      uploadImageToAsset imageData apiKey assetUrl uuid response =
        .error s!"Failed to upload image: {response.status} {response.statusText} - {response.bodyText}") ∧
    (∀ result, response.ok = true → response.json = some result →
      optStrTruthy (result.fileContent.map FileContent.path) = false →
      uploadImageToAsset imageData apiKey assetUrl uuid response =
        .error "No image path returned from asset API") ∧
    (∀ path, uploadImageToAsset imageData apiKey assetUrl uuid response = .ok path →
      path.isEmpty = false) := by
  refine ⟨?_, ?_, ?_⟩
  · intro hko
    simp [uploadImageToAsset, hko]
  · intro result hok hjson hfalsy
    rcases result with ⟨fc⟩
    rcases fc with _ | ⟨p⟩
    · simp [uploadImageToAsset, hok, hjson]
    · have hfe : p.path.isEmpty = true := by
        simpa [optStrTruthy] using hfalsy
      simp [uploadImageToAsset, hok, hjson, hfe]
  · intro path h
    simp only [uploadImageToAsset] at h
    split at h
    · simp at h
    · split at h
      · simp at h
      · split at h
        · simp at h
        · rename_i fc
          split at h
          · simp at h
          · rename_i hpe
            simp only [Except.ok.injEq] at h
            subst h
            simpa using hpe

/-- Splitting distributes over a separator-free prefix, which joins the
current segment. -/
theorem splitCharAux_append_no_sep (sep : Char) :
    ∀ (l₁ : List Char), (∀ c ∈ l₁, c ≠ sep) → ∀ (l₂ acc : List Char),
      splitCharAux sep (l₁ ++ l₂) acc = splitCharAux sep l₂ (l₁.reverse ++ acc)
  | [], _, l₂, acc => by simp
  | c :: cs, h, l₂, acc => by
    have hc : c ≠ sep := h c (List.mem_cons_self c cs)
    have ih := splitCharAux_append_no_sep sep cs
      (fun x hx => h x (List.mem_cons_of_mem c hx)) l₂ (c :: acc)
    simp only [List.cons_append, splitCharAux, if_neg hc, ih]
    simpa using ih

/-- Splitting a separator-free list yields a single segment. -/
theorem splitCharAux_no_sep (sep : Char) (l acc : List Char)
    (h : ∀ c ∈ l, c ≠ sep) :
    splitCharAux sep l acc = [acc.reverse ++ l] := by
  have h2 := splitCharAux_append_no_sep sep l h [] acc
  simpa [splitCharAux] using h2

/-- `takeWhile` keeps a prefix on which the predicate holds. -/
theorem takeWhile_append_of_all (p : Char → Bool) :
    ∀ (l₁ : List Char), (∀ c ∈ l₁, p c = true) → ∀ (l₂ : List Char),
      (l₁ ++ l₂).takeWhile p = l₁ ++ l₂.takeWhile p
  | [], _, l₂ => by simp
  | c :: cs, h, l₂ => by
    have hc := h c (List.mem_cons_self c cs)
    have ih := takeWhile_append_of_all p cs
      (fun x hx => h x (List.mem_cons_of_mem c hx)) l₂
    simp [List.takeWhile_cons, hc, ih]

/-- Evaluation of `processImageUrl` on a well-formed base64 data URI: the
regex captures the declared media type (returned unchanged), the split
yields the payload, and the `atob`-decoded bytes are returned. -/
theorem processImageUrl_data_uri (fetch : String → FetchResponse)
    (mrest payload : String) (bytes : List Nat)
    (hm : ∀ c ∈ mrest.toList, c ≠ ';' ∧ c ≠ ',')
    (hne : payload.toList ≠ [])
    (hnc : ∀ c ∈ payload.toList, c ≠ ',')
    (hdec : atob payload = some bytes) :
    processImageUrl fetch ("data:image/" ++ mrest ++ ";base64," ++ payload) =
      .ok { data := bytes, mimeType := "image/" ++ mrest } := by
  have hlist : ("data:image/" ++ mrest ++ ";base64," ++ payload).toList =
      "data:image/".toList ++ (mrest.toList ++ (";base64,".toList ++ payload.toList)) := by
    simp [String.toList, String.data_append]
  have htake : (("data:image/" ++ mrest ++ ";base64," ++ payload).toList).take
      dataImageMark.length = dataImageMark := by
    rw [hlist]
    exact List.take_left' rfl
  have hsplit5 : ("data:image/".toList : List Char) = "data:".toList ++ "image/".toList := by
    decide
  have hallA : ∀ c ∈ ("image/".toList : List Char), (!(c = ';' || c = ',')) = true := by
    decide
  have hall : ∀ c ∈ ("image/".toList ++ mrest.toList), (!(c = ';' || c = ',')) = true := by
    intro c hc
    rcases List.mem_append.mp hc with h | h
    · exact hallA c h
    · rcases hm c h with ⟨h1, h2⟩
      simp [h1, h2]
  have hmime : regexDataMime ("data:image/" ++ mrest ++ ";base64," ++ payload).toList =
      some ("image/" ++ mrest) := by
    simp only [regexDataMime]
    rw [hlist, hsplit5, List.append_assoc]
    rw [@List.take_left' Char "data:".toList _ 5 rfl, if_pos rfl,
      @List.drop_left' Char "data:".toList _ 5 rfl]
    rw [← List.append_assoc "image/".toList mrest.toList]
    rw [takeWhile_append_of_all _ _ hall]
    have hz : ((";base64,".toList ++ payload.toList)).takeWhile
        (fun c => !(c = ';' || c = ',')) = [] := rfl
    rw [hz, List.append_nil]
    have hcne : ("image/".toList ++ mrest.toList).isEmpty = false := rfl
    rw [hcne]
    simp only [Bool.false_eq_true, if_false]
    rfl
  have hcomma8 : (";base64,".toList : List Char) = ";base64".toList ++ [','] := by decide
  have hpreA : ∀ c ∈ ("data:image/".toList : List Char), c ≠ ',' := by decide
  have hpreB : ∀ c ∈ (";base64".toList : List Char), c ≠ ',' := by decide
  have hpre : ∀ c ∈ ("data:image/".toList ++ (mrest.toList ++ ";base64".toList)), c ≠ ',' := by
    intro c hc
    rcases List.mem_append.mp hc with h | h
    · exact hpreA c h
    · rcases List.mem_append.mp h with h | h
      · exact (hm c h).2
      · exact hpreB c h
  have hsplitC : splitCharAux ',' ("data:image/" ++ mrest ++ ";base64," ++ payload).toList [] =
      [("data:image/".toList ++ (mrest.toList ++ ";base64".toList)), payload.toList] := by
    rw [hlist, hcomma8]
    have hshape : "data:image/".toList ++
        (mrest.toList ++ ((";base64".toList ++ [',']) ++ payload.toList)) =
        ("data:image/".toList ++ (mrest.toList ++ ";base64".toList)) ++
          (',' :: payload.toList) := by
      simp [List.append_assoc]
    rw [hshape, splitCharAux_append_no_sep ',' _ hpre]
    simp only [List.append_nil, splitCharAux, if_pos rfl]
    rw [splitCharAux_no_sep ',' payload.toList [] hnc]
    simp
  have hpne : (payload.toList).isEmpty = false := by
    cases hp : payload.toList with
    | nil => exact absurd hp hne
    | cons a l => rfl
  have hne2 : payload.data ≠ [] := hne
  have hdec2 : atob (String.mk payload.data) = some bytes := hdec
  simp only [processImageUrl]
  simp at htake hsplitC hmime
  simp [htake, hsplitC, hmime, hne2, hdec2]

/-- Evaluation of `processImageUrl` on a data URI with no comma-separated
payload segment: a hard input-format error. -/
theorem processImageUrl_data_uri_no_payload (fetch : String → FetchResponse)
    (mrest : String)
    (hm : ∀ c ∈ mrest.toList, c ≠ ';' ∧ c ≠ ',') :
    processImageUrl fetch ("data:image/" ++ mrest ++ ";base64") =
      .error "Invalid base64 image format" := by
  have hlist : ("data:image/" ++ mrest ++ ";base64").toList =
      "data:image/".toList ++ (mrest.toList ++ ";base64".toList) := by
    simp [String.toList, String.data_append]
  have htake : (("data:image/" ++ mrest ++ ";base64").toList).take
      dataImageMark.length = dataImageMark := by
    rw [hlist]
    exact List.take_left' rfl
  have hpreA : ∀ c ∈ ("data:image/".toList : List Char), c ≠ ',' := by decide
  have hpreB : ∀ c ∈ (";base64".toList : List Char), c ≠ ',' := by decide
  have hfree : ∀ c ∈ ("data:image/".toList ++ (mrest.toList ++ ";base64".toList)), c ≠ ',' := by
    intro c hc
    rcases List.mem_append.mp hc with h | h
    · exact hpreA c h
    · rcases List.mem_append.mp h with h | h
      · exact (hm c h).2
      · exact hpreB c h
  have hsplitC : splitCharAux ',' ("data:image/" ++ mrest ++ ";base64").toList [] =
      [("data:image/".toList ++ (mrest.toList ++ ";base64".toList))] := by
    rw [hlist, splitCharAux_no_sep ',' _ [] hfree]
    simp
  simp only [processImageUrl]
  simp at htake hsplitC
  simp [htake, hsplitC]

/-- Claim C5 (amended to nonempty payloads): for a data URI
`"data:image/png;base64," ++ payload` whose payload is nonempty, comma-free
and valid base64 decoding to `bytes`, `processImageUrl` returns exactly
those bytes — so the byte length equals the decoded byte count — with
`mimeType` exactly `"image/png"`; and a data URI with no comma-separated
payload segment fails with the input-format error. -/
theorem processImageUrl_png_data_uri_roundtrip
    (fetch : String → FetchResponse) (payload : String) (bytes : List Nat)
    (hne : payload.toList ≠ [])
    (hnc : ∀ c ∈ payload.toList, c ≠ ',')
    (hdec : atob payload = some bytes) :
    processImageUrl fetch ("data:image/png;base64," ++ payload) =
      .ok { data := bytes, mimeType := "image/png" } ∧
    processImageUrl fetch "data:image/png;base64" =
      .error "Invalid base64 image format" := by
  constructor
  · exact processImageUrl_data_uri fetch "png" payload bytes (by decide) hne hnc hdec
  · exact processImageUrl_data_uri_no_payload fetch "png" (by decide)

/-- Closed witness for C5: the payload `"QUJD"` is valid base64 of the three
bytes `[65, 66, 67]`, which are returned with mimeType `"image/png"`. -/
theorem processImageUrl_png_data_uri_roundtrip_witness :
    processImageUrl fetchStub "data:image/png;base64,QUJD" =
      .ok { data := [65, 66, 67], mimeType := "image/png" } :=
  (processImageUrl_png_data_uri_roundtrip fetchStub "QUJD" [65, 66, 67]
      (by decide) (by decide) (by rfl)).1

/-- Counterexample for C5 as stated: the empty string is the valid base64
encoding of zero bytes (`atob "" = some []`), yet `processImageUrl` rejects
the empty payload with the input-format error instead of returning
zero-length `ImageData`. -/
theorem processImageUrl_empty_payload_cex :
    atob "" = some [] ∧
    processImageUrl fetchStub "data:image/png;base64," =
      .error "Invalid base64 image format" :=
  ⟨rfl, rfl⟩

/-- Claim C8 (amended): on a data URI, `processImageUrl` returns the
declared media type unchanged even when it is not a recognized image MIME
type — no defaulting to `"image/png"` happens for a declared type — while a
missing payload segment remains a hard error. -/
theorem processImageUrl_data_mime_passthrough
    (fetch : String → FetchResponse) (mrest payload : String) (bytes : List Nat)
    (hm : ∀ c ∈ mrest.toList, c ≠ ';' ∧ c ≠ ',')
    (hne : payload.toList ≠ [])
    (hnc : ∀ c ∈ payload.toList, c ≠ ',')
    (hdec : atob payload = some bytes) :
    processImageUrl fetch ("data:image/" ++ mrest ++ ";base64," ++ payload) =
      .ok { data := bytes, mimeType := "image/" ++ mrest } ∧
    processImageUrl fetch ("data:image/" ++ mrest ++ ";base64") =
      .error "Invalid base64 image format" :=
  ⟨processImageUrl_data_uri fetch mrest payload bytes hm hne hnc hdec,
   processImageUrl_data_uri_no_payload fetch mrest hm⟩

/-- Closed witness for C8's amended claim at the unrecognized media type
`image/tiff`. -/
theorem processImageUrl_data_mime_passthrough_witness :
    processImageUrl fetchStub "data:image/tiff;base64,QQ==" =
      .ok { data := [65], mimeType := "image/tiff" } :=
  (processImageUrl_data_mime_passthrough fetchStub "tiff" "QQ==" [65]
      (by decide) (by decide) (by decide) (by rfl)).1

/-- Counterexample for C8 as stated: on the unrecognized data-URI media type
`image/tiff` the returned `mimeType` is the declared `"image/tiff"`, not the
claimed default `"image/png"`. -/
theorem processImageUrl_unrecognized_mime_cex :
    processImageUrl fetchStub "data:image/tiff;base64,QQ==" =
      .ok { data := [65], mimeType := "image/tiff" } ∧
    ("image/tiff" : String) ≠ "image/png" :=
  ⟨rfl, by decide⟩

end Relay
